import Mathlib

/-!
# Verification of the VoxAI realtime relay server

Shallow embedding of the relay server (`server.mjs`: origin guard, admission
controller, per-connection session state machine, upstream message
translation) and proofs of the specification's testable properties.

Conventions of the embedding:
* JavaScript numbers that hold counters are modelled as `Int` where the code
  clamps them (so that the clamp is meaningful) and as `Nat` where they only
  ever grow; timestamps are `Nat` milliseconds.
* JavaScript truthiness on strings (`""` is falsy) is modelled by `jsTruthy`,
  and the `x || d` default idiom by `jsOrInt` / `jsOrStr`.
* The process-wide `connectionsByIp` `Map` is an association list with
  `mapGet` / `mapSet` / `mapDel`; the `activeConnections` `Set` is a list of
  connection identifiers with `Set.add` / `Set.delete` semantics.
* The single-threaded event loop is a step function over explicit events;
  `ws.on('close')` and `ws.on('error')` both firing for one connection is
  modelled by allowing repeated `close` events in a trace.
* The awaited upstream `client.live.connect` call is collapsed to an explicit
  `Except` outcome parameter; the `onopen` callback that runs before the
  await resolves is folded into the success branch.
-/

/-- JavaScript truthiness of an optional string: `undefined` and `""` are falsy. -/
def jsTruthy : Option String → Bool
  | none => false
  | some s => s ≠ ""

/-- The JavaScript `v || d` default idiom on numbers: `undefined` and `0` give `d`. -/
def jsOrInt (v : Option Int) (d : Int) : Int :=
  match v with
  | none => d
  | some x => if x = 0 then d else x

/-- The JavaScript `v || d` default idiom on strings: `undefined` and `""` give `d`. -/
def jsOrStr (v : Option String) (d : String) : String :=
  match v with
  | none => d
  | some x => if x = "" then d else x

/-- `Map.get`: the value stored for a key, if any. -/
def mapGet : List (String × Int) → String → Option Int
  | [], _ => none
  | e :: t, k => if e.1 = k then some e.2 else mapGet t k

/-- `Map.delete`: remove every binding of a key. -/
def mapDel : List (String × Int) → String → List (String × Int)
  | [], _ => []
  | e :: t, k => if e.1 = k then mapDel t k else e :: mapDel t k

/-- `Map.set`: bind a key to a value, replacing any previous binding. -/
def mapSet (m : List (String × Int)) (k : String) (v : Int) : List (String × Int) :=
  (k, v) :: mapDel m k

/-- JavaScript `Set.add` on the set of live connection identifiers. -/
def setAdd (l : List Nat) (x : Nat) : List Nat :=
  if x ∈ l then l else x :: l

/-- Server configuration (the `CONFIG` object plus the deployment mode flag). -/
structure RelayConfig where
  model : String
  defaultVoice : String
  maxConnections : Nat
  maxConnectionsPerIp : Nat
  maxMessagesPerMinute : Nat
  allowedOrigins : List String
  isProduction : Bool
deriving DecidableEq

/-- The request headers the origin guard reads. -/
structure UpgradeReq where
  origin : Option String
deriving DecidableEq

/-- `isAllowedOrigin(req)`: outside production everything is allowed; in
production a falsy `Origin` header is rejected and otherwise the origin must
appear verbatim in the configured allow-list. -/
def isAllowedOrigin (cfg : RelayConfig) (req : UpgradeReq) : Bool :=
  if !cfg.isProduction then
    true
  else
    match req.origin with
    | none => false
    | some o => if o = "" then false else cfg.allowedOrigins.contains o

/-- The `{allowed, reason}` record returned by `withinConnectionLimit`. -/
structure AdmissionResult where
  allowed : Bool
  reason : String
deriving DecidableEq

/-- `withinConnectionLimit(totalConnections, connectionsByIp, clientIp)`. -/
def withinConnectionLimit (cfg : RelayConfig) (totalConnections : Nat)
    (connectionsByIp : List (String × Int)) (clientIp : String) : AdmissionResult :=
  if cfg.maxConnections ≤ totalConnections then
    ⟨false, "Server is at max websocket capacity."⟩
  else if (cfg.maxConnectionsPerIp : Int) ≤ jsOrInt (mapGet connectionsByIp clientIp) 0 then
    ⟨false, "Too many websocket connections for this IP."⟩
  else
    ⟨true, ""⟩

/-- Process-wide admission-counter state: the `activeConnections` set (as a
list of connection identifiers), the `connectionsByIp` map, and a fresh-id
counter standing for the allocation of new socket objects. -/
structure RelayState where
  active : List Nat
  byIp : List (String × Int)
  nextId : Nat
deriving DecidableEq

/-- The counter updates performed at the head of `relayWss.on('connection')`:
count the socket in the per-address map and the global set. -/
def acceptConnection (s : RelayState) (ip : String) : RelayState :=
  { active := setAdd s.active s.nextId
    byIp := mapSet s.byIp ip (jsOrInt (mapGet s.byIp ip) 0 + 1)
    nextId := s.nextId + 1 }

/-- The counter updates performed by `closeConnection`: drop the socket from
the global set, decrement the per-address count clamped at zero, and delete
the address entry entirely when the count reaches zero. -/
def closeCounters (s : RelayState) (id : Nat) (ip : String) : RelayState :=
  { active := s.active.erase id
    byIp :=
      if max (jsOrInt (mapGet s.byIp ip) 1 - 1) 0 = 0 then mapDel s.byIp ip
      else mapSet s.byIp ip (max (jsOrInt (mapGet s.byIp ip) 1 - 1) 0)
    nextId := s.nextId }

/-- The admission-relevant events of the event loop: a websocket upgrade
request for `/api/live`, and one firing of `closeConnection` (the `close` and
`error` handlers may each fire, so a trace may close the same id twice). -/
inductive RelayEvent where
  | upgrade (req : UpgradeReq) (ip : String)
  | close (id : Nat) (ip : String)

/-- One step of the relay process: `server.on('upgrade')` runs the admission
check and then the origin guard before accepting; `closeConnection` runs
whenever a socket's `close`/`error` handler fires. -/
def stepRelay (cfg : RelayConfig) (s : RelayState) : RelayEvent → RelayState
  | RelayEvent.upgrade req ip =>
      if (withinConnectionLimit cfg s.active.length s.byIp ip).allowed then
        if isAllowedOrigin cfg req then acceptConnection s ip else s
      else s
  | RelayEvent.close id ip => closeCounters s id ip

/-- The state at process start: no tracked connections. -/
def initRelay : RelayState := ⟨[], [], 0⟩

/-- The admission-counter state after a trace of events. -/
def runRelay (cfg : RelayConfig) (evs : List RelayEvent) : RelayState :=
  evs.foldl (stepRelay cfg) initRelay

/-- The invariant maintained by the admission controller: every tracked
per-address count is between 1 and the per-address maximum, and the global
set size is at most the global maximum. -/
def RelayInv (cfg : RelayConfig) (s : RelayState) : Prop :=
  (∀ ip v, mapGet s.byIp ip = some v → 1 ≤ v ∧ v ≤ (cfg.maxConnectionsPerIp : Int)) ∧
  s.active.length ≤ cfg.maxConnections

/-- The fixed allow-list of upstream voices. -/
def VOICE_ALLOWLIST : List String := ["Aoede", "Kore", "Leda", "Puck", "Zephyr"]

/-- `normalizeVoiceName`: keep an allow-listed voice, otherwise the default. -/
def normalizeVoiceName (cfg : RelayConfig) : Option String → String
  | some v => if VOICE_ALLOWLIST.contains v then v else cfg.defaultVoice
  | none => cfg.defaultVoice

/-- `normalizeConversationMode`: exactly two recognized values. -/
def normalizeConversationMode : Option String → String
  | some v => if v = "push-to-talk" then "push-to-talk" else "vad"
  | none => "vad"

/-- `normalizeInstruction`: trim, then hard-truncate to 4000 characters. -/
def normalizeInstruction : Option String → String
  | some v => (v.trim.take 4000)
  | none => ""

/-- An upstream provider session handle; `closeThrows` records whether its
`close()` call throws when invoked. -/
structure UpSession where
  closeThrows : Bool
deriving DecidableEq

/-- `session.close()` on the upstream handle, which may throw. -/
def sessionClose (u : UpSession) : Except String Unit :=
  if u.closeThrows then Except.error "close failed" else Except.ok ()

/-- The per-connection `state` object created in `relayWss.on('connection')`. -/
structure ConnState where
  closed : Bool
  starting : Bool
  connected : Bool
  session : Option UpSession
  mode : String
  voiceName : String
  messageWindowStart : Nat
  messageCount : Nat
deriving DecidableEq

/-- The `state` object as initialized for a freshly accepted connection. -/
def initConn (cfg : RelayConfig) (now : Nat) : ConnState :=
  { closed := false, starting := false, connected := false, session := none
    mode := "vad", voiceName := cfg.defaultVoice
    messageWindowStart := now, messageCount := 0 }

/-- `withinMessageLimit(state)`: fixed 60-second window; on rollover reset the
count and restart the window, then increment, then compare against the
ceiling. Returns the verdict and the mutated state. -/
def withinMessageLimit (cfg : RelayConfig) (now : Nat) (s : ConnState) : Bool × ConnState :=
  let s1 := if 60000 ≤ now - s.messageWindowStart
            then { s with messageWindowStart := now, messageCount := 0 }
            else s
  let s2 := { s1 with messageCount := s1.messageCount + 1 }
  (decide (s2.messageCount ≤ cfg.maxMessagesPerMinute), s2)

/-- Everything the relay emits while handling events: frames sent to the
browser via `sendMessage`, websocket close calls, and calls into the upstream
session. -/
inductive RelayOutput where
  | frame (t : String) (body : List (String × String))
  | wsClose (code : Nat) (reason : String)
  | upstreamAudio (data : String) (mimeType : String)
  | upstreamText (text : String)
  | upstreamConnect (model voice mode instruction : String)
deriving DecidableEq

/-- One `part` of an upstream model turn. -/
structure GeminiPart where
  inlineData : Option String
  text : Option String
deriving DecidableEq

/-- A transcription field of upstream `serverContent`. -/
structure Transcription where
  text : Option String
deriving DecidableEq

/-- The `serverContent` of an upstream message; `modelTurn?.parts || []` is
collapsed to a plain list (absent model turn or parts is `[]`). -/
structure ServerContent where
  interrupted : Bool
  parts : List GeminiPart
  inputTranscription : Option Transcription
  outputTranscription : Option Transcription
deriving DecidableEq

/-- An upstream provider message as seen by `forwardGeminiMessage`. -/
structure GeminiMsg where
  serverContent : Option ServerContent
deriving DecidableEq

/-- The frames produced for one model-turn part: an `audio` frame when inline
data is truthy, and an `ai` transcript frame when the text is a non-blank
string. -/
def partFrames (p : GeminiPart) : List RelayOutput :=
  (match p.inlineData with
   | none => []
   | some d => if d = "" then [] else [RelayOutput.frame "audio" [("data", d)]]) ++
  (match p.text with
   | none => []
   | some t =>
       if t.trim = "" then []
       else [RelayOutput.frame "transcript" [("speaker", "ai"), ("text", t)]])

/-- The frames produced for a whole parts list, in part order. -/
def partsFrames : List GeminiPart → List RelayOutput
  | [] => []
  | p :: rest => partFrames p ++ partsFrames rest

/-- The transcript frame produced for an input/output transcription field,
suppressed when absent or blank. -/
def transcriptFrames (speaker : String) : Option Transcription → List RelayOutput
  | none => []
  | some tr =>
      match tr.text with
      | none => []
      | some txt =>
          if txt.trim = "" then []
          else [RelayOutput.frame "transcript" [("speaker", speaker), ("text", txt)]]

/-- `forwardGeminiMessage(ws, message)`: translate one upstream message into
browser frames. An interrupted signal short-circuits to a single
`interrupted` frame; otherwise part frames, then the user transcript, then
the ai transcript. -/
def forwardGeminiMessage (m : GeminiMsg) : List RelayOutput :=
  match m.serverContent with
  | none => []
  | some sc =>
      if sc.interrupted then [RelayOutput.frame "interrupted" []]
      else
        partsFrames sc.parts ++
        transcriptFrames "user" sc.inputTranscription ++
        transcriptFrames "ai" sc.outputTranscription

/-- The `payload` object of a client message (absent payload is all-`none`). -/
structure ClientPayload where
  data : Option String
  mimeType : Option String
  text : Option String
  systemInstruction : Option String
  voiceName : Option String
  conversationMode : Option String
deriving DecidableEq

/-- A parsed client message envelope. -/
structure ClientMsg where
  type : Option String
  payload : ClientPayload
deriving DecidableEq

/-- A client payload with every field absent. -/
def emptyPayload : ClientPayload :=
  { data := none, mimeType := none, text := none
    systemInstruction := none, voiceName := none, conversationMode := none }

/-- `startGeminiSession(ws, state, payload)`: a no-op while `starting` or
while a session handle exists; otherwise normalize the payload and attempt
the upstream connection. The awaited `client.live.connect` (together with its
`onopen` callback and the catch/finally around it) is collapsed to the
explicit `outcome`: on success the session handle is stored and `connected`
is set with a `connected` frame; on failure an `error` frame is sent and the
socket is closed with 1011; `starting` is cleared either way. -/
def startGeminiSession (cfg : RelayConfig) (outcome : Except String UpSession)
    (payload : ClientPayload) (s : ConnState) : ConnState × List RelayOutput :=
  if s.starting || s.session.isSome then
    (s, [])
  else
    match outcome with
    | Except.ok sess =>
        ({ s with starting := false, session := some sess, connected := true
                  voiceName := normalizeVoiceName cfg payload.voiceName
                  mode := normalizeConversationMode payload.conversationMode },
         [RelayOutput.upstreamConnect cfg.model
            (normalizeVoiceName cfg payload.voiceName)
            (normalizeConversationMode payload.conversationMode)
            (normalizeInstruction payload.systemInstruction),
          RelayOutput.frame "connected"
            [("mode", normalizeConversationMode payload.conversationMode),
             ("voiceName", normalizeVoiceName cfg payload.voiceName)]])
    | Except.error e =>
        ({ s with starting := false
                  voiceName := normalizeVoiceName cfg payload.voiceName
                  mode := normalizeConversationMode payload.conversationMode },
         [RelayOutput.upstreamConnect cfg.model
            (normalizeVoiceName cfg payload.voiceName)
            (normalizeConversationMode payload.conversationMode)
            (normalizeInstruction payload.systemInstruction),
          RelayOutput.frame "error" [("message", e)],
          RelayOutput.wsClose 1011 "Failed to initialize relay"])

/-- `stopGeminiSession(state)`: no-op without a session; otherwise close the
upstream session inside try/catch (close errors are swallowed, so the result
is `ok` in every case) and clear the handle and the `connected` flag. The
second component counts upstream `close()` invocations. -/
def stopGeminiSession (s : ConnState) : Except String (ConnState × Nat) :=
  match s.session with
  | none => Except.ok (s, 0)
  | some u =>
      match sessionClose u with
      | Except.ok _ =>
          Except.ok ({ s with session := none, connected := false }, 1)
      | Except.error _ =>
          -- Ignore close errors.
          Except.ok ({ s with session := none, connected := false }, 1)

/-- The `type === 'audio'` branch of the message handler: drop the frame when
the data field is falsy, otherwise forward it upstream with the default MIME
type when the caller's is falsy. -/
def handleAudio (payload : ClientPayload) (s : ConnState) : ConnState × List RelayOutput :=
  match payload.data with
  | none => (s, [])
  | some d =>
      if d = "" then (s, [])
      else (s, [RelayOutput.upstreamAudio d (jsOrStr payload.mimeType "audio/pcm;rate=16000")])

/-- The `type === 'text'` branch of the message handler: drop the frame when
the text field is falsy, otherwise forward one turn-complete text turn. -/
def handleText (payload : ClientPayload) (s : ConnState) : ConnState × List RelayOutput :=
  match payload.text with
  | none => (s, [])
  | some t =>
      if t = "" then (s, [])
      else (s, [RelayOutput.upstreamText t])

/-- The typed dispatch of the message handler after JSON parsing: `start`
first, then the active-session guard, then `audio` / `text` / `stop`, and
silence for unknown types. -/
def dispatchMessage (cfg : RelayConfig) (outcome : Except String UpSession)
    (msg : ClientMsg) (s : ConnState) : ConnState × List RelayOutput :=
  if msg.type = some "start" then
    startGeminiSession cfg outcome msg.payload s
  else if s.session.isNone || !s.connected then
    (s, [RelayOutput.frame "error" [("message", "Relay session is not active.")]])
  else if msg.type = some "audio" then
    handleAudio msg.payload s
  else if msg.type = some "text" then
    handleText msg.payload s
  else if msg.type = some "stop" then
    (s, [RelayOutput.wsClose 1000 "Client requested stop"])
  else
    (s, [])

/-- `ws.on('message')`: the rate limiter runs (and counts the frame) before
any JSON parsing; on a rate rejection an error frame is sent and the socket
closed with 1008; a frame that fails to parse (`raw = none`) elicits an error
frame; otherwise the parsed message is dispatched. -/
def handleRelayMessage (cfg : RelayConfig) (outcome : Except String UpSession)
    (now : Nat) (raw : Option ClientMsg) (s0 : ConnState) : ConnState × List RelayOutput :=
  if (withinMessageLimit cfg now s0).1 then
    match raw with
    | none =>
        ((withinMessageLimit cfg now s0).2,
         [RelayOutput.frame "error" [("message", "Invalid JSON payload.")]])
    | some msg => dispatchMessage cfg outcome msg (withinMessageLimit cfg now s0).2
  else
    ((withinMessageLimit cfg now s0).2,
     [RelayOutput.frame "error" [("message", "Rate limit exceeded.")],
      RelayOutput.wsClose 1008 "Rate limit exceeded"])

/-- Whether an output is a close of the browser-facing socket. -/
def isSocketClose : RelayOutput → Bool
  | RelayOutput.wsClose _ _ => true
  | _ => false

/-- Delivery of one raw frame by the transport: a closed connection delivers
nothing, and a handler that closed the socket ends delivery for good (the
transport emits no further `message` events). -/
def deliverMessage (cfg : RelayConfig) (outcome : Except String UpSession)
    (s : ConnState) (now : Nat) (raw : Option ClientMsg) : ConnState × List RelayOutput :=
  if s.closed then
    (s, [])
  else
    (if (handleRelayMessage cfg outcome now raw s).2.any isSocketClose
     then { (handleRelayMessage cfg outcome now raw s).1 with closed := true }
     else (handleRelayMessage cfg outcome now raw s).1,
     (handleRelayMessage cfg outcome now raw s).2)

/-- Delivery of a sequence of timestamped raw frames. -/
def deliverAll (cfg : RelayConfig) (outcome : Except String UpSession) :
    ConnState → List (Nat × Option ClientMsg) → ConnState × List RelayOutput
  | s, [] => (s, [])
  | s, ev :: rest =>
      ((deliverAll cfg outcome (deliverMessage cfg outcome s ev.1 ev.2).1 rest).1,
       (deliverMessage cfg outcome s ev.1 ev.2).2 ++
         (deliverAll cfg outcome (deliverMessage cfg outcome s ev.1 ev.2).1 rest).2)

/-- A development-mode configuration with the default ceilings. -/
def sampleCfg : RelayConfig :=
  { model := "gemini-2.5-flash-native-audio-preview-12-2025"
    defaultVoice := "Aoede"
    maxConnections := 200
    maxConnectionsPerIp := 10
    maxMessagesPerMinute := 1500
    allowedOrigins := []
    isProduction := false }

/-- A production configuration with a one-element origin allow-list. -/
def prodCfg : RelayConfig :=
  { sampleCfg with isProduction := true, allowedOrigins := ["https://app.example.com"] }

/-- A configuration whose per-connection message ceiling is one per minute. -/
def tinyCfg : RelayConfig :=
  { sampleCfg with maxMessagesPerMinute := 1 }

/-- An upgrade request carrying no Origin header. -/
def anyReq : UpgradeReq := ⟨none⟩

/-- Two upgrades from one address. -/
def pairTrace : List RelayEvent :=
  [RelayEvent.upgrade anyReq "198.51.100.7", RelayEvent.upgrade anyReq "198.51.100.7"]

/-- Three upgrades from one address followed by a double-fired close of the
first socket (its `close` and `error` handlers both running). -/
def dblCloseTrace : List RelayEvent :=
  [RelayEvent.upgrade anyReq "198.51.100.7", RelayEvent.upgrade anyReq "198.51.100.7",
   RelayEvent.upgrade anyReq "198.51.100.7",
   RelayEvent.close 0 "198.51.100.7", RelayEvent.close 0 "198.51.100.7"]

/-- A freshly accepted connection that has not started a session. -/
def idleConn : ConnState := initConn sampleCfg 0

/-- A connection with an open, well-behaved upstream session. -/
def connectedConn : ConnState :=
  { closed := false, starting := false, connected := true, session := some ⟨false⟩
    mode := "vad", voiceName := "Aoede", messageWindowStart := 0, messageCount := 0 }

/-- A connection whose upstream session's `close()` throws. -/
def throwingConn : ConnState :=
  { closed := false, starting := false, connected := true, session := some ⟨true⟩
    mode := "vad", voiceName := "Aoede", messageWindowStart := 0, messageCount := 0 }

/-- A connection with `connected` still set but no session handle (the state
during the connect await after `onopen` has fired). -/
def ghostConnected : ConnState :=
  { closed := false, starting := false, connected := true, session := none
    mode := "vad", voiceName := "Aoede", messageWindowStart := 0, messageCount := 0 }

/-- A connection one message short of the `tinyCfg` ceiling in an open window. -/
def rateState : ConnState :=
  { idleConn with messageCount := 1 }

/-- An audio payload with data and no MIME hint. -/
def audioPayload : ClientPayload :=
  { emptyPayload with data := some "QUJD" }

/-- An upstream message carrying the interrupted signal together with audio,
text, and transcription content. -/
def busyContent : ServerContent :=
  { interrupted := true
    parts := [⟨some "AAAA", some "hello there"⟩]
    inputTranscription := some ⟨some "hi"⟩
    outputTranscription := some ⟨some "hello there"⟩ }

/-- The upstream message wrapping `busyContent`. -/
def busyInterrupted : GeminiMsg := ⟨some busyContent⟩

theorem mapGet_mapDel (m : List (String × Int)) (k k2 : String) :
    mapGet (mapDel m k) k2 = if k2 = k then none else mapGet m k2 := by
  induction m with
  | nil => simp [mapDel, mapGet]
  | cons e t ih =>
      by_cases h1 : e.1 = k <;> by_cases h2 : k2 = k <;> by_cases h3 : e.1 = k2 <;>
        simp_all [mapDel, mapGet]

theorem mapGet_mapSet (m : List (String × Int)) (k k2 : String) (v : Int) :
    mapGet (mapSet m k v) k2 = if k = k2 then some v else mapGet m k2 := by
  by_cases h : k = k2
  · simp [mapSet, mapGet, h]
  · simp [mapSet, mapGet, mapGet_mapDel, h, Ne.symm h]

theorem withinConnectionLimit_allowed (cfg : RelayConfig) (total : Nat)
    (m : List (String × Int)) (ip : String)
    (h : (withinConnectionLimit cfg total m ip).allowed = true) :
    total < cfg.maxConnections ∧
      jsOrInt (mapGet m ip) 0 < (cfg.maxConnectionsPerIp : Int) := by
  unfold withinConnectionLimit at h
  split_ifs at h with h1 h2
  exact ⟨by omega, by omega⟩

theorem relayInv_step (cfg : RelayConfig) (s : RelayState) (e : RelayEvent)
    (h : RelayInv cfg s) : RelayInv cfg (stepRelay cfg s e) := by
  obtain ⟨hmap, hlen⟩ := h
  cases e with
  | upgrade req ip =>
      simp only [stepRelay]
      split_ifs with hallow horigin
      · obtain ⟨htot, hip⟩ := withinConnectionLimit_allowed cfg _ _ _ hallow
        have hnn : 0 ≤ jsOrInt (mapGet s.byIp ip) 0 := by
          cases hg : mapGet s.byIp ip with
          | none => simp [jsOrInt]
          | some w =>
              have := (hmap ip w hg).1
              simp only [jsOrInt]
              split <;> omega
        constructor
        · intro ip2 v hv
          simp only [acceptConnection] at hv
          rw [mapGet_mapSet] at hv
          by_cases he : ip = ip2
          · rw [if_pos he] at hv
            simp only [Option.some.injEq] at hv
            subst hv
            exact ⟨by omega, by omega⟩
          · rw [if_neg he] at hv
            exact hmap ip2 v hv
        · simp only [acceptConnection, setAdd]
          split
          · exact hlen
          · simp only [List.length_cons]
            omega
      · exact ⟨hmap, hlen⟩
      · exact ⟨hmap, hlen⟩
  | close id ip =>
      simp only [stepRelay]
      constructor
      · intro ip2 v hv
        simp only [closeCounters] at hv
        cases hg : mapGet s.byIp ip with
        | none =>
            rw [hg] at hv
            norm_num [jsOrInt] at hv
            rw [mapGet_mapDel] at hv
            split at hv
            · simp at hv
            · exact hmap ip2 v hv
        | some w =>
            obtain ⟨hw1, hw2⟩ := hmap ip w hg
            rw [hg] at hv
            have hjs : jsOrInt (some w) 1 = w := by
              simp only [jsOrInt]
              split <;> omega
            rw [hjs] at hv
            have hmax : max (w - 1) 0 = w - 1 := max_eq_left (by omega)
            rw [hmax] at hv
            by_cases hz : w - 1 = 0
            · rw [if_pos hz, mapGet_mapDel] at hv
              split at hv
              · simp at hv
              · exact hmap ip2 v hv
            · rw [if_neg hz, mapGet_mapSet] at hv
              by_cases he : ip = ip2
              · rw [if_pos he] at hv
                simp only [Option.some.injEq] at hv
                subst hv
                exact ⟨by omega, by omega⟩
              · rw [if_neg he] at hv
                exact hmap ip2 v hv
      · simp only [closeCounters]
        exact le_trans (List.Sublist.length_le (s.active.erase_sublist id)) hlen

theorem relayInv_run (cfg : RelayConfig) (evs : List RelayEvent) :
    RelayInv cfg (runRelay cfg evs) := by
  have base : RelayInv cfg initRelay := by
    constructor
    · intro ip v hv
      simp [initRelay, mapGet] at hv
    · simp [initRelay]
  have gen : ∀ (l : List RelayEvent) (s : RelayState), RelayInv cfg s →
      RelayInv cfg (l.foldl (stepRelay cfg) s) := by
    intro l
    induction l with
    | nil => intro s hs; exact hs
    | cons e t ih =>
        intro s hs
        exact ih (stepRelay cfg s e) (relayInv_step cfg s e hs)
  exact gen evs initRelay base

theorem withinMessageLimit_fst (cfg : RelayConfig) (now : Nat) (s : ConnState) :
    (withinMessageLimit cfg now s).1
      = decide ((withinMessageLimit cfg now s).2.messageCount ≤ cfg.maxMessagesPerMinute) := rfl

theorem withinMessageLimit_session (cfg : RelayConfig) (now : Nat) (s : ConnState) :
    (withinMessageLimit cfg now s).2.session = s.session := by
  unfold withinMessageLimit
  dsimp only
  split <;> rfl

theorem withinMessageLimit_connected (cfg : RelayConfig) (now : Nat) (s : ConnState) :
    (withinMessageLimit cfg now s).2.connected = s.connected := by
  unfold withinMessageLimit
  dsimp only
  split <;> rfl

theorem startGeminiSession_count (cfg : RelayConfig) (outcome : Except String UpSession)
    (payload : ClientPayload) (s : ConnState) :
    (startGeminiSession cfg outcome payload s).1.messageCount = s.messageCount := by
  unfold startGeminiSession
  split
  · rfl
  · cases outcome <;> rfl

theorem handleAudio_fst (p : ClientPayload) (s : ConnState) :
    (handleAudio p s).1 = s := by
  unfold handleAudio
  cases p.data
  · rfl
  · dsimp only
    split <;> rfl

theorem handleText_fst (p : ClientPayload) (s : ConnState) :
    (handleText p s).1 = s := by
  unfold handleText
  cases p.text
  · rfl
  · dsimp only
    split <;> rfl

theorem dispatchMessage_count (cfg : RelayConfig) (outcome : Except String UpSession)
    (msg : ClientMsg) (s : ConnState) :
    (dispatchMessage cfg outcome msg s).1.messageCount = s.messageCount := by
  unfold dispatchMessage
  split_ifs
  · exact startGeminiSession_count cfg outcome msg.payload s
  · rfl
  · rw [handleAudio_fst]
  · rw [handleText_fst]
  · rfl
  · rfl

theorem deliverAll_closed (cfg : RelayConfig) (outcome : Except String UpSession)
    (s : ConnState) (hs : s.closed = true) :
    ∀ evs, deliverAll cfg outcome s evs = (s, []) := by
  intro evs
  induction evs with
  | nil => rfl
  | cons e t ih => simp [deliverAll, deliverMessage, hs, ih]

/-- C1: at every reachable state of the relay process, every source address's
tracked active-connection count is at most the configured per-address
maximum, and the tracked global active-connection count is at most the
configured global maximum, assuming both configured maxima are positive. -/
theorem relay_connection_counts_bounded (cfg : RelayConfig) (evs : List RelayEvent)
    (_hconn : 0 < cfg.maxConnections) (_hip : 0 < cfg.maxConnectionsPerIp) :
    (∀ ip, jsOrInt (mapGet (runRelay cfg evs).byIp ip) 0 ≤ (cfg.maxConnectionsPerIp : Int)) ∧
    (runRelay cfg evs).active.length ≤ cfg.maxConnections := by
  obtain ⟨hmap, hlen⟩ := relayInv_run cfg evs
  refine ⟨?_, hlen⟩
  intro ip
  cases hg : mapGet (runRelay cfg evs).byIp ip with
  | none =>
      simp only [jsOrInt]
      omega
  | some w =>
      have := hmap ip w hg
      simp only [jsOrInt]
      split <;> omega

/-- C1 witness: the bounds hold at the state reached by a concrete trace
under a concrete positive configuration. -/
theorem relay_connection_counts_bounded_witness :
    0 < sampleCfg.maxConnections ∧ 0 < sampleCfg.maxConnectionsPerIp ∧
    ((∀ ip, jsOrInt (mapGet (runRelay sampleCfg dblCloseTrace).byIp ip) 0
        ≤ (sampleCfg.maxConnectionsPerIp : Int)) ∧
     (runRelay sampleCfg dblCloseTrace).active.length ≤ sampleCfg.maxConnections) :=
  ⟨by decide, by decide,
   relay_connection_counts_bounded sampleCfg dblCloseTrace (by decide) (by decide)⟩

/-- C7: when a connection closes, the tracked global count drops by one and
its address's count drops by one, with the address entry removed entirely
when the count reaches zero; consequently the per-address map never holds an
entry with a zero count at any reachable state. -/
theorem closeConnection_decrements_and_prunes (cfg : RelayConfig) (evs : List RelayEvent)
    (id : Nat) (ip : String) :
    ((id ∈ (runRelay cfg evs).active) →
        (stepRelay cfg (runRelay cfg evs) (RelayEvent.close id ip)).active.length + 1
          = (runRelay cfg evs).active.length) ∧
    (∀ v, mapGet (runRelay cfg evs).byIp ip = some v →
        mapGet (stepRelay cfg (runRelay cfg evs) (RelayEvent.close id ip)).byIp ip
          = if v = 1 then none else some (v - 1)) ∧
    (∀ ip2 v, mapGet (runRelay cfg evs).byIp ip2 = some v → v ≠ 0) := by
  obtain ⟨hmap, _⟩ := relayInv_run cfg evs
  refine ⟨?_, ?_, ?_⟩
  · intro hid
    simp only [stepRelay, closeCounters]
    have hpos : 0 < (runRelay cfg evs).active.length := List.length_pos_of_mem hid
    rw [List.length_erase_of_mem hid]
    omega
  · intro v hv
    have hv1 : 1 ≤ v := (hmap ip v hv).1
    simp only [stepRelay, closeCounters]
    rw [hv]
    have hjs : jsOrInt (some v) 1 = v := by
      simp only [jsOrInt]
      split <;> omega
    rw [hjs]
    have hmax : max (v - 1) 0 = v - 1 := max_eq_left (by omega)
    rw [hmax]
    by_cases h1 : v = 1
    · rw [if_pos h1, if_pos (by omega), mapGet_mapDel, if_pos rfl]
    · rw [if_neg h1, if_neg (by omega), mapGet_mapSet, if_pos rfl]
  · intro ip2 v hv
    have := (hmap ip2 v hv).1
    omega

/-- C7 witness: with two connections open from one address, closing one
removes it from the global set and steps the address count from two to one;
at that state no per-address entry is zero. -/
theorem closeConnection_decrements_and_prunes_witness :
    (0 ∈ (runRelay sampleCfg pairTrace).active ∧
     (stepRelay sampleCfg (runRelay sampleCfg pairTrace)
        (RelayEvent.close 0 "198.51.100.7")).active.length + 1
          = (runRelay sampleCfg pairTrace).active.length) ∧
    (mapGet (runRelay sampleCfg pairTrace).byIp "198.51.100.7" = some 2 ∧
     mapGet (stepRelay sampleCfg (runRelay sampleCfg pairTrace)
        (RelayEvent.close 0 "198.51.100.7")).byIp "198.51.100.7" = some 1) := by
  have h := closeConnection_decrements_and_prunes sampleCfg pairTrace 0 "198.51.100.7"
  refine ⟨⟨by decide, h.1 (by decide)⟩, ⟨by decide, ?_⟩⟩
  have h2 := h.2.1 2 (by decide)
  simpa using h2

/-- C10: the tracked per-address connection count never becomes negative at
any reachable state, even along traces in which a connection's cleanup runs
twice because both its `close` and its `error` handler fired. -/
theorem perIp_count_never_negative (cfg : RelayConfig) (evs : List RelayEvent) :
    ∀ ip v, mapGet (runRelay cfg evs).byIp ip = some v → 0 ≤ v := by
  intro ip v hv
  have := ((relayInv_run cfg evs).1 ip v hv).1
  omega

/-- C10 witness: after a trace that closes the same connection twice, the
surviving per-address entry is still non-negative. -/
theorem perIp_count_never_negative_witness :
    mapGet (runRelay sampleCfg dblCloseTrace).byIp "198.51.100.7" = some 1 ∧
    (0 : Int) ≤ 1 :=
  ⟨by decide,
   perIp_count_never_negative sampleCfg dblCloseTrace "198.51.100.7" 1 (by decide)⟩

/-- C2: when an inbound frame's post-increment count in the current
60-second window exceeds the configured per-minute ceiling, the relay sends
an error frame and closes the connection with close code 1008 without
processing the frame, and no later frame on that connection is processed;
and an elapsed window is restarted with the count reset before the
increment. -/
theorem rate_limit_exceeded_closes (cfg : RelayConfig) (outcome : Except String UpSession)
    (s : ConnState) (now : Nat) (raw : Option ClientMsg)
    (evs : List (Nat × Option ClientMsg))
    (hopen : s.closed = false)
    (hexceed : cfg.maxMessagesPerMinute < (withinMessageLimit cfg now s).2.messageCount) :
    deliverMessage cfg outcome s now raw
      = ({ (withinMessageLimit cfg now s).2 with closed := true },
         [RelayOutput.frame "error" [("message", "Rate limit exceeded.")],
          RelayOutput.wsClose 1008 "Rate limit exceeded"]) ∧
    (deliverAll cfg outcome (deliverMessage cfg outcome s now raw).1 evs).2 = [] ∧
    (60000 ≤ now - s.messageWindowStart →
        (withinMessageLimit cfg now s).2.messageWindowStart = now ∧
        (withinMessageLimit cfg now s).2.messageCount = 1) := by
  have hfst : (withinMessageLimit cfg now s).1 = false := by
    rw [withinMessageLimit_fst]
    simp only [decide_eq_false_iff_not, not_le]
    exact hexceed
  have hmsg : handleRelayMessage cfg outcome now raw s
      = ((withinMessageLimit cfg now s).2,
         [RelayOutput.frame "error" [("message", "Rate limit exceeded.")],
          RelayOutput.wsClose 1008 "Rate limit exceeded"]) := by
    unfold handleRelayMessage
    rw [hfst]
    simp
  have hdel : deliverMessage cfg outcome s now raw
      = ({ (withinMessageLimit cfg now s).2 with closed := true },
         [RelayOutput.frame "error" [("message", "Rate limit exceeded.")],
          RelayOutput.wsClose 1008 "Rate limit exceeded"]) := by
    unfold deliverMessage
    rw [hopen, hmsg]
    simp [isSocketClose]
  refine ⟨hdel, ?_, ?_⟩
  · have hclosed : (deliverMessage cfg outcome s now raw).1.closed = true := by
      rw [hdel]
    rw [deliverAll_closed cfg outcome _ hclosed evs]
  · intro h60
    simp [withinMessageLimit, h60]

/-- C2 witness: a second frame inside one window against a ceiling of one
per minute is rejected, the socket is closed with 1008, and a later frame
produces no output. -/
theorem rate_limit_exceeded_closes_witness :
    rateState.closed = false ∧
    tinyCfg.maxMessagesPerMinute < (withinMessageLimit tinyCfg 0 rateState).2.messageCount ∧
    (deliverMessage tinyCfg (Except.error "e") rateState 0 none
      = ({ (withinMessageLimit tinyCfg 0 rateState).2 with closed := true },
         [RelayOutput.frame "error" [("message", "Rate limit exceeded.")],
          RelayOutput.wsClose 1008 "Rate limit exceeded"]) ∧
     (deliverAll tinyCfg (Except.error "e")
        (deliverMessage tinyCfg (Except.error "e") rateState 0 none).1 [(0, none)]).2 = []) := by
  have h := rate_limit_exceeded_closes tinyCfg (Except.error "e") rateState 0 none [(0, none)]
    (by decide) (by decide)
  exact ⟨by decide, by decide, h.1, h.2.1⟩

/-- C9: every inbound frame is counted by the rate limiter before JSON
parsing: the post-handler message count equals the post-increment count for
every raw frame, and when the post-increment count exceeds the ceiling the
handler emits the rate error and the 1008 close for every raw frame,
including an unparseable one (`raw = none`). -/
theorem rate_counter_precedes_parsing (cfg : RelayConfig) (outcome : Except String UpSession)
    (now : Nat) (raw : Option ClientMsg) (s : ConnState) :
    (handleRelayMessage cfg outcome now raw s).1.messageCount
        = (withinMessageLimit cfg now s).2.messageCount ∧
    (cfg.maxMessagesPerMinute < (withinMessageLimit cfg now s).2.messageCount →
        handleRelayMessage cfg outcome now raw s
          = ((withinMessageLimit cfg now s).2,
             [RelayOutput.frame "error" [("message", "Rate limit exceeded.")],
              RelayOutput.wsClose 1008 "Rate limit exceeded"])) := by
  constructor
  · unfold handleRelayMessage
    split
    · cases raw
      · rfl
      · exact dispatchMessage_count cfg outcome _ _
    · rfl
  · intro hexceed
    have hfst : (withinMessageLimit cfg now s).1 = false := by
      rw [withinMessageLimit_fst]
      simp only [decide_eq_false_iff_not, not_le]
      exact hexceed
    unfold handleRelayMessage
    rw [hfst]
    simp

/-- C9 witness: an unparseable frame past the ceiling is itself counted and
triggers the 1008 close. -/
theorem rate_counter_precedes_parsing_witness :
    tinyCfg.maxMessagesPerMinute < (withinMessageLimit tinyCfg 0 rateState).2.messageCount ∧
    handleRelayMessage tinyCfg (Except.error "e") 0 none rateState
      = ((withinMessageLimit tinyCfg 0 rateState).2,
         [RelayOutput.frame "error" [("message", "Rate limit exceeded.")],
          RelayOutput.wsClose 1008 "Rate limit exceeded"]) :=
  ⟨by decide,
   (rate_counter_precedes_parsing tinyCfg (Except.error "e") 0 none rateState).2 (by decide)⟩

/-- C3: a `start` request arriving while a start is in flight or while an
upstream session handle exists is a no-op: the state is unchanged and no
output at all is produced — no upstream connection attempt and no error
frame to the browser. -/
theorem second_start_is_noop (cfg : RelayConfig) (outcome : Except String UpSession)
    (payload : ClientPayload) (s : ConnState)
    (h : s.starting = true ∨ s.session.isSome = true) :
    startGeminiSession cfg outcome payload s = (s, []) := by
  unfold startGeminiSession
  rcases h with h | h <;> simp [h]

/-- C3 witness: a start on an already-connected state is a no-op even when a
fresh upstream session could be created. -/
theorem second_start_is_noop_witness :
    connectedConn.session.isSome = true ∧
    startGeminiSession sampleCfg (Except.ok ⟨false⟩) emptyPayload connectedConn
      = (connectedConn, []) :=
  ⟨by decide,
   second_start_is_noop sampleCfg (Except.ok ⟨false⟩) emptyPayload connectedConn
     (Or.inr (by decide))⟩

/-- C4 counterexample: with no active session, an inbound audio frame is not
silently dropped — the relay emits an error frame to the browser. -/
theorem audio_when_idle_emits_error_frame :
    (handleRelayMessage sampleCfg (Except.error "e") 0
        (some ⟨some "audio", audioPayload⟩) idleConn).2
      = [RelayOutput.frame "error" [("message", "Relay session is not active.")]] ∧
    (handleRelayMessage sampleCfg (Except.error "e") 0
        (some ⟨some "audio", audioPayload⟩) idleConn).2 ≠ [] :=
  ⟨by decide, by decide⟩

/-- C4 (amended): an inbound audio frame on a connection that is not
connected (or has no session handle) elicits exactly one error frame and is
not forwarded and does not close the connection; when connected, a frame
with an absent data field is a silent no-op, and a frame with data and no
MIME hint is forwarded upstream with the default type
`audio/pcm;rate=16000`. -/
theorem audio_message_routing (cfg : RelayConfig) (outcome : Except String UpSession)
    (now : Nat) (s : ConnState) (pl : ClientPayload)
    (hok : (withinMessageLimit cfg now s).1 = true) :
    ((s.session.isNone || !s.connected) = true →
        handleRelayMessage cfg outcome now (some ⟨some "audio", pl⟩) s
          = ((withinMessageLimit cfg now s).2,
             [RelayOutput.frame "error" [("message", "Relay session is not active.")]])) ∧
    (∀ u, s.session = some u → s.connected = true → pl.data = none →
        handleRelayMessage cfg outcome now (some ⟨some "audio", pl⟩) s
          = ((withinMessageLimit cfg now s).2, [])) ∧
    (∀ u d, s.session = some u → s.connected = true → pl.data = some d → d ≠ "" →
        pl.mimeType = none →
        handleRelayMessage cfg outcome now (some ⟨some "audio", pl⟩) s
          = ((withinMessageLimit cfg now s).2,
             [RelayOutput.upstreamAudio d "audio/pcm;rate=16000"])) := by
  have hred : handleRelayMessage cfg outcome now (some ⟨some "audio", pl⟩) s
      = dispatchMessage cfg outcome ⟨some "audio", pl⟩ (withinMessageLimit cfg now s).2 := by
    unfold handleRelayMessage
    rw [hok]
    simp
  have hty : ¬ ((⟨some "audio", pl⟩ : ClientMsg).type = some "start") := by
    intro h
    exact absurd (Option.some.inj h) (by decide)
  refine ⟨?_, ?_, ?_⟩
  · intro hguard
    have hguard2 : ((withinMessageLimit cfg now s).2.session.isNone
        || !(withinMessageLimit cfg now s).2.connected) = true := by
      rw [withinMessageLimit_session, withinMessageLimit_connected]
      exact hguard
    rw [hred]
    unfold dispatchMessage
    rw [if_neg hty, if_pos hguard2]
  · intro u hs hc hd
    have hg : ((withinMessageLimit cfg now s).2.session.isNone
        || !(withinMessageLimit cfg now s).2.connected) = false := by
      rw [withinMessageLimit_session, withinMessageLimit_connected, hs, hc]
      rfl
    rw [hred]
    unfold dispatchMessage
    rw [if_neg hty, if_neg (by simp [hg]),
        if_pos (rfl : ((⟨some "audio", pl⟩ : ClientMsg).type = some "audio"))]
    unfold handleAudio
    dsimp only
    rw [hd]
  · intro u d hs hc hd hne hm
    have hg : ((withinMessageLimit cfg now s).2.session.isNone
        || !(withinMessageLimit cfg now s).2.connected) = false := by
      rw [withinMessageLimit_session, withinMessageLimit_connected, hs, hc]
      rfl
    rw [hred]
    unfold dispatchMessage
    rw [if_neg hty, if_neg (by simp [hg]),
        if_pos (rfl : ((⟨some "audio", pl⟩ : ClientMsg).type = some "audio"))]
    unfold handleAudio
    dsimp only
    rw [hd]
    dsimp only
    rw [if_neg hne]
    unfold jsOrStr
    rw [hm]

/-- C4 witness: on a connected session, an audio frame with data and no MIME
hint is forwarded upstream with the default MIME type. -/
theorem audio_message_routing_witness :
    (withinMessageLimit sampleCfg 0 connectedConn).1 = true ∧
    handleRelayMessage sampleCfg (Except.error "e") 0
        (some ⟨some "audio", audioPayload⟩) connectedConn
      = ((withinMessageLimit sampleCfg 0 connectedConn).2,
         [RelayOutput.upstreamAudio "QUJD" "audio/pcm;rate=16000"]) :=
  ⟨by decide,
   (audio_message_routing sampleCfg (Except.error "e") 0 connectedConn audioPayload
      (by decide)).2.2 ⟨false⟩ "QUJD" (by decide) (by decide) (by decide)
      (by decide) (by decide)⟩

/-- C5 counterexample: in production mode a request with no Origin header is
rejected by the origin guard, contradicting that it is allowed in every
deployment mode. -/
theorem no_origin_rejected_in_production :
    prodCfg.isProduction = true ∧ isAllowedOrigin prodCfg anyReq = false :=
  ⟨rfl, rfl⟩

/-- C5 (amended): a request with no Origin header is allowed whenever the
deployment is not in production mode (where the guard allows everything),
and rejected in production mode. -/
theorem origin_guard_no_origin_header (cfg : RelayConfig) (req : UpgradeReq) :
    (cfg.isProduction = false → isAllowedOrigin cfg req = true) ∧
    (cfg.isProduction = true → req.origin = none → isAllowedOrigin cfg req = false) := by
  constructor
  · intro h
    simp [isAllowedOrigin, h]
  · intro h ho
    simp [isAllowedOrigin, h, ho]

/-- C5 witness: the amended guard behaviour at concrete configurations. -/
theorem origin_guard_no_origin_header_witness :
    (sampleCfg.isProduction = false ∧ isAllowedOrigin sampleCfg anyReq = true) ∧
    (prodCfg.isProduction = true ∧ anyReq.origin = none ∧
       isAllowedOrigin prodCfg anyReq = false) :=
  ⟨⟨rfl, (origin_guard_no_origin_header sampleCfg anyReq).1 rfl⟩,
   ⟨rfl, rfl, (origin_guard_no_origin_header prodCfg anyReq).2 rfl rfl⟩⟩

/-- C6: an upstream message whose serverContent carries the interrupted
signal yields exactly one `interrupted` frame (with no payload) and no other
frame, regardless of any parts or transcription fields it also carries. -/
theorem interrupted_emits_single_frame (m : GeminiMsg) (sc : ServerContent)
    (hm : m.serverContent = some sc) (hi : sc.interrupted = true) :
    forwardGeminiMessage m = [RelayOutput.frame "interrupted" []] := by
  unfold forwardGeminiMessage
  rw [hm]
  simp [hi]

/-- C6 witness: a message carrying the interrupted signal together with an
audio part, a text part and both transcriptions produces only the
`interrupted` frame. -/
theorem interrupted_emits_single_frame_witness :
    forwardGeminiMessage busyInterrupted = [RelayOutput.frame "interrupted" []] :=
  interrupted_emits_single_frame busyInterrupted busyContent rfl rfl

/-- C8 counterexample: on a state with no session handle but the connected
flag still set (the state during the connect await after `onopen` has
fired), teardown is a no-op, so invoking it twice leaves the connected flag
true rather than false. -/
theorem stop_twice_keeps_connected_flag :
    stopGeminiSession ghostConnected = Except.ok (ghostConnected, 0) ∧
    ghostConnected.connected = true :=
  ⟨rfl, rfl⟩

/-- C8 (amended): invoking stopGeminiSession twice in succession performs
the upstream close at most once, returns normally both times even when the
upstream close throws, and leaves the session handle null; when a session
handle existed at the first invocation the close is performed exactly once
and the connected flag is left false, and when none existed both invocations
are no-ops leaving the state (including the connected flag) unchanged. -/
theorem stopGeminiSession_idempotent (s : ConnState) :
    ∃ s1 n1, stopGeminiSession s = Except.ok (s1, n1) ∧ n1 ≤ 1 ∧
      stopGeminiSession s1 = Except.ok (s1, 0) ∧
      s1.session = none ∧
      (∀ u, s.session = some u → n1 = 1 ∧ s1.connected = false) ∧
      (s.session = none → s1 = s) := by
  cases hs : s.session with
  | none =>
      refine ⟨s, 0, ?_, by omega, ?_, hs, ?_, fun _ => rfl⟩
      · unfold stopGeminiSession
        rw [hs]
      · unfold stopGeminiSession
        rw [hs]
      · intro u hu
        exact Option.noConfusion hu
  | some u =>
      obtain ⟨b⟩ := u
      refine ⟨{ s with session := none, connected := false }, 1, ?_, le_refl 1,
        rfl, rfl, ?_, ?_⟩
      · unfold stopGeminiSession
        rw [hs]
        cases b <;> rfl
      · intro u2 _
        exact ⟨rfl, rfl⟩
      · intro hnone
        exact Option.noConfusion hnone

/-- C8 witness: the amended property at a connection whose upstream session
close throws. -/
theorem stopGeminiSession_idempotent_witness :
    ∃ s1 n1, stopGeminiSession throwingConn = Except.ok (s1, n1) ∧ n1 ≤ 1 ∧
      stopGeminiSession s1 = Except.ok (s1, 0) ∧
      s1.session = none ∧
      (∀ u, throwingConn.session = some u → n1 = 1 ∧ s1.connected = false) ∧
      (throwingConn.session = none → s1 = throwingConn) :=
  stopGeminiSession_idempotent throwingConn
